import Mathlib

set_option maxHeartbeats 1000000
set_option maxRecDepth 100000

/-
  Verification development for the asset-bundling pipeline in src/noname.ts.
  Definitions are a shallow embedding of the source: machine integers are Nat
  with explicit reduction modulo 2^32 or 256, external effects (network, file
  system, response object) are supplied through explicit environments, and the
  trace of observable operations is returned as a list of events.
-/

/- ===== SHA-256 core (the `crypto.subtle.digest("SHA-256", …)` collaborator,
   computed bit-for-bit so that `generateHashFromArray` is executable) ===== -/

/-- Reduction modulo 2^32, mirroring 32-bit unsigned arithmetic. -/
def mask32 (x : Nat) : Nat := x % 4294967296

/-- Right rotation of a 32-bit word. -/
def rotr32 (n x : Nat) : Nat := mask32 ((x >>> n) ||| (x <<< (32 - n)))

def bsig0 (x : Nat) : Nat := rotr32 2 x ^^^ rotr32 13 x ^^^ rotr32 22 x

def bsig1 (x : Nat) : Nat := rotr32 6 x ^^^ rotr32 11 x ^^^ rotr32 25 x

def ssig0 (x : Nat) : Nat := rotr32 7 x ^^^ rotr32 18 x ^^^ (x >>> 3)

def ssig1 (x : Nat) : Nat := rotr32 17 x ^^^ rotr32 19 x ^^^ (x >>> 10)

/-- SHA-256 choice function; the complement of x is taken inside 32 bits. -/
def chFn (x y z : Nat) : Nat := (x &&& y) ^^^ ((x ^^^ 4294967295) &&& z)

def majFn (x y z : Nat) : Nat := (x &&& y) ^^^ (x &&& z) ^^^ (y &&& z)

/-- The 64 SHA-256 round constants, written in decimal. -/
def sha256K : List Nat :=
  [1116352408, 1899447441, 3049323471, 3921009573,
   961987163, 1508970993, 2453635748, 2870763221,
   3624381080, 310598401, 607225278, 1426881987,
   1925078388, 2162078206, 2614888103, 3248222580,
   3835390401, 4022224774, 264347078, 604807628,
   770255983, 1249150122, 1555081692, 1996064986,
   2554220882, 2821834349, 2952996808, 3210313671,
   3336571891, 3584528711, 113926993, 338241895,
   666307205, 773529912, 1294757372, 1396182291,
   1695183700, 1986661051, 2177026350, 2456956037,
   2730485921, 2820302411, 3259730800, 3345764771,
   3516065817, 3600352804, 4094571909, 275423344,
   430227734, 506948616, 659060556, 883997877,
   958139571, 1322822218, 1537002063, 1747873779,
   1955562222, 2024104815, 2227730452, 2361852424,
   2428436474, 2756734187, 3204031479, 3329325298]

/-- The eight 32-bit words of a SHA-256 state. -/
structure Hash8 where
  w0 : Nat
  w1 : Nat
  w2 : Nat
  w3 : Nat
  w4 : Nat
  w5 : Nat
  w6 : Nat
  w7 : Nat
deriving DecidableEq

def initH : Hash8 :=
  ⟨1779033703, 3144134277, 1013904242, 2773480762,
   1359893119, 2600822924, 528734635, 1541459225⟩

/-- One SHA-256 compression round; `kw` is the pair of round constant and schedule word. -/
def roundStep (s : Hash8) (kw : Nat × Nat) : Hash8 :=
  let t1 := mask32 (s.w7 + bsig1 s.w4 + chFn s.w4 s.w5 s.w6 + kw.1 + kw.2)
  let t2 := mask32 (bsig0 s.w0 + majFn s.w0 s.w1 s.w2)
  ⟨mask32 (t1 + t2), s.w0, s.w1, s.w2, mask32 (s.w3 + t1), s.w4, s.w5, s.w6⟩

/-- Big-endian packing of bytes into 32-bit words. -/
def toWords : List Nat → List Nat
  | b0 :: b1 :: b2 :: b3 :: rest => ((b0 <<< 24) ||| (b1 <<< 16) ||| (b2 <<< 8) ||| b3) :: toWords rest
  | _ => []

/-- The next message-schedule word, computed from the last 16 words of `w`. -/
def nextW (w : List Nat) : Nat :=
  mask32 (ssig1 (w.getD (w.length - 2) 0) + w.getD (w.length - 7) 0 +
          ssig0 (w.getD (w.length - 15) 0) + w.getD (w.length - 16) 0)

/-- Extend the 16 packed words by `n` further schedule words. -/
def extendW : Nat → List Nat → List Nat
  | 0, w => w
  | n + 1, w => extendW n (w ++ [nextW w])

def processBlock (s : Hash8) (block : List Nat) : Hash8 :=
  let w := extendW 48 (toWords block)
  let t := (sha256K.zip w).foldl roundStep s
  ⟨mask32 (s.w0 + t.w0), mask32 (s.w1 + t.w1), mask32 (s.w2 + t.w2), mask32 (s.w3 + t.w3),
   mask32 (s.w4 + t.w4), mask32 (s.w5 + t.w5), mask32 (s.w6 + t.w6), mask32 (s.w7 + t.w7)⟩

/-- The eight bytes of the big-endian 64-bit message bit length. -/
def lenBytes8 (n : Nat) : List Nat :=
  [(n >>> 56) % 256, (n >>> 48) % 256, (n >>> 40) % 256, (n >>> 32) % 256,
   (n >>> 24) % 256, (n >>> 16) % 256, (n >>> 8) % 256, n % 256]

/-- SHA-256 padding: a 0x80 byte, zeros to 56 mod 64, then the bit length. -/
def padMessage (msg : List Nat) : List Nat :=
  msg ++ 128 :: (List.replicate ((120 - (msg.length + 1) % 64) % 64) 0 ++ lenBytes8 (8 * msg.length))

/-- Split into 64-byte blocks; the fuel argument keeps the recursion structural. -/
def toChunksGo : Nat → List Nat → List (List Nat)
  | 0, _ => []
  | fuel + 1, l => if l.isEmpty then [] else l.take 64 :: toChunksGo fuel (l.drop 64)

def toChunks (l : List Nat) : List (List Nat) := toChunksGo l.length l

/-- Big-endian bytes of one 32-bit word. -/
def wordBytes (w : Nat) : List Nat := [(w >>> 24) % 256, (w >>> 16) % 256, (w >>> 8) % 256, w % 256]

def digestWords (s : Hash8) : List Nat := [s.w0, s.w1, s.w2, s.w3, s.w4, s.w5, s.w6, s.w7]

def digestBytes (s : Hash8) : List Nat := ((digestWords s).map wordBytes).flatten

/-- SHA-256 of a byte sequence, as 32 bytes. -/
def sha256 (msg : List Nat) : List Nat :=
  digestBytes ((toChunks (padMessage msg)).foldl processBlock initH)

/- ===== UTF-8 encoding (the TextEncoder collaborator) and hex rendering ===== -/

/-- UTF-8 bytes of one character, as produced by TextEncoder. -/
def utf8EncodeCharBytes (c : Char) : List Nat :=
  let n := c.toNat
  if n < 128 then [n]
  else if n < 2048 then [192 ||| (n >>> 6), 128 ||| (n &&& 63)]
  else if n < 65536 then [224 ||| (n >>> 12), 128 ||| ((n >>> 6) &&& 63), 128 ||| (n &&& 63)]
  else [240 ||| (n >>> 18), 128 ||| ((n >>> 12) &&& 63), 128 ||| ((n >>> 6) &&& 63), 128 ||| (n &&& 63)]

def utf8Encode (s : String) : List Nat := (s.data.map utf8EncodeCharBytes).flatten

/-- padStart(2, "0") of JavaScript on a short string. -/
def padTwoZero (s : String) : String := String.mk (List.replicate (2 - s.length) '0' ++ s.data)

/-- One byte rendered as `byte.toString(16).padStart(2, "0")`. -/
def jsByteHex (b : Nat) : String := padTwoZero (String.mk (Nat.toDigits 16 b))

def bytesToHex (bs : List Nat) : String := String.join (bs.map jsByteHex)

/-- Embedding of `generateHashFromArray` (src/noname.ts line 325): the SHA-256 of
the file names joined with no separator, rendered as lowercase hex. -/
def generateHashFromArray (array : List String) : String :=
  bytesToHex (sha256 (utf8Encode (String.join array)))

/- ===== Data model ===== -/

/-- The parsed inbound payload (interface Noname / DownloadAssets). -/
structure Noname where
  action : String
  owner : Option String
  repo : Option String
  version : Option String
  fileList : List String
deriving DecidableEq

/-- JavaScript `a || d` on an optional string: undefined and the empty string
are falsy and select the default. -/
def jsOr : Option String → String → String
  | none, d => d
  | some s, d => if s = "" then d else s

/-- Embedding of `getLatestVersionFromGitHub` (src/noname.ts lines 306-320),
as a pure function of the single tag-list response: `Except.error ()` stands
for a non-ok or failed fetch, `Except.ok tags` for the decoded JSON array. -/
def firstNonSentinel : List String → Option String
  | [] => none
  | t :: ts => if t ≠ "v1998" then some t else firstNonSentinel ts

def getLatestVersionFromGitHub : Except Unit (List String) → Except String String
  | Except.error _ => Except.error "Failed to fetch tags from GitHub repository"
  | Except.ok tags =>
    match firstNonSentinel tags with
    | some t => Except.ok t
    | none => Except.error "No valid tags found in the repository"

/-- The character class of the sanitizing regex on src/noname.ts line 421,
written as the alternation the regex spells out. -/
def sanitizeChar (c : Char) : Char :=
  if c = '/' then '-'
  else if c = '\\' then '-'
  else if c = '?' then '-'
  else if c = '%' then '-'
  else if c = '*' then '-'
  else if c = ':' then '-'
  else if c = '|' then '-'
  else if c = '\"' then '-'
  else if c = '<' then '-'
  else if c = '>' then '-'
  else c

/-- Global single-character regex replacement is a character map. -/
def sanitize (s : String) : String := String.mk (s.data.map sanitizeChar)

/-- Embedding of the artifact name construction (src/noname.ts line 421): the
template is composed first and the replacement is applied to the whole name. -/
def assetName (owner repo version hash : String) : String :=
  sanitize ("noname-asset-" ++ owner ++ "-" ++ repo ++ "-" ++ version ++ "-" ++ hash ++ ".zip")

/-- The raw-content URL fetched for one file (src/noname.ts line 445). -/
def rawUrl (owner repo version file : String) : String :=
  "https://ghproxy.cc/https://raw.githubusercontent.com/" ++ owner ++ "/" ++ repo ++ "/" ++
    version ++ "/" ++ file

/- ===== Observable events of one request ===== -/

/-- Observable external operations performed by the request listener, in
program order.  `unlinkStart` records that `unlink(path)` was invoked; a
separate `unlinkDone` event would record an awaited completion — the source
never awaits the unlink, so the listener never emits it. -/
inductive Event where
  | fetchTags
  | fetchAttempt (url : String) (k : Nat)
  | writeHead (status : Nat)
  | endResponse
  | append (name : String)
  | finalizeArchive
  | destroy
  | unlinkStart (path : String)
  | unlinkDone (path : String)
deriving DecidableEq

/-- The bytes the caller receives on the response object. -/
inductive RespBody (β : Type) where
  | empty
  | text (s : String)
  | cacheStream (content : β)
  | archiveStream (entries : List (String × β))
deriving DecidableEq

/-- Outcome of one request: the event trace, the delivered body, and the error
caught by the catch block, when any. -/
structure HandlerResult (β : Type) where
  events : List Event
  body : RespBody β
  errorMsg : Option String
deriving DecidableEq

/-- The external world of one listener request.  `attempt url k` is the outcome
of the k-th fetch attempt of `url` (`none` covers a transport error, a non-ok
status, and a null body — all retried alike by the source).  `headerOk` tells
whether `res.writeHead(200, …)` in `sendZIPFile` succeeds (it throws on header
values with invalid characters), and `headerErr` is the message of that throw.
`finalizeOk`/`finalizeErr` play the same role for `archive.finalize()`. -/
structure Env (β : Type) where
  tags : Except Unit (List String)
  attempt : String → Nat → Option β
  pathExists : String → Bool
  content : String → β
  headerOk : Bool
  headerErr : String
  finalizeOk : Bool
  finalizeErr : String

/- ===== fetchBody (src/noname.ts lines 370-382) ===== -/

/-- The retry loop of `fetchBody`: `repetition` counts the attempts already
made, the fuel is the number of attempts still allowed.  Returns the attempt
events performed and either the first successful body or the terminal error. -/
def fetchBodyGo {β : Type} (att : Nat → Option β) (url : String) (retryCount : Nat) :
    Nat → Nat → List Event × Except String β
  | _, 0 =>
    ([], Except.error ("Failed to fetch body after " ++ toString retryCount ++ " attempts"))
  | repetition, remaining + 1 =>
    match att repetition with
    | some b => ([Event.fetchAttempt url repetition], Except.ok b)
    | none =>
      let r := fetchBodyGo att url retryCount (repetition + 1) remaining
      (Event.fetchAttempt url repetition :: r.1, r.2)

/-- Embedding of `fetchBody`; the source's call site leaves `retryCount` at its
default of 5. -/
def fetchBody {β : Type} (att : Nat → Option β) (url : String) (retryCount : Nat) :
    List Event × Except String β :=
  fetchBodyGo att url retryCount 0 retryCount

/-- The fetch-and-append phase of a cache-miss build (src/noname.ts lines
444-451): every file is fetched through `fetchBody` and appended to the archive
under its own name on success; the first exhausted file aborts the phase, as
`Promise.all` rejects with the first rejection. -/
def fetchPhase {β : Type} (att : String → Nat → Option β) (owner repo version : String) :
    List String → List Event × Except String (List (String × β))
  | [] => ([], Except.ok [])
  | f :: fs =>
    let url := rawUrl owner repo version f
    let rF := fetchBody (att url) url 5
    match rF.2 with
    | Except.error e => (rF.1, Except.error e)
    | Except.ok b =>
      let rRest := fetchPhase att owner repo version fs
      match rRest.2 with
      | Except.error e => (rF.1 ++ Event.append f :: rRest.1, Except.error e)
      | Except.ok rest => (rF.1 ++ Event.append f :: rRest.1, Except.ok ((f, b) :: rest))

/- ===== The request listener (src/noname.ts lines 387-467) ===== -/

/-- Version resolution step of the listener (line 419): a supplied non-empty
version is used verbatim, otherwise the tag list is queried once. -/
def resolveVersionEv (tags : Except Unit (List String)) : Option String →
    List Event × Except String String
  | some v => if v = "" then ([Event.fetchTags], getLatestVersionFromGitHub tags)
              else ([], Except.ok v)
  | none => ([Event.fetchTags], getLatestVersionFromGitHub tags)

/-- Cache-miss build (the else branch, lines 429-454): headers are sent, the
archive is piped to the response and the cache file, every file is fetched and
appended, then the archive is finalized.  Any throw lands in the catch block
(lines 456-466): the response is destroyed when headers were already sent, and
`unlink(path)` is invoked without being awaited. -/
def missBuild {β : Type} (env : Env β) (owner repo version : String) (fileList : List String)
    (evV : List Event) (path : String) : HandlerResult β :=
  let rF := fetchPhase env.attempt owner repo version fileList
  match rF.2 with
  | Except.error e =>
    ⟨evV ++ Event.writeHead 200 :: rF.1 ++ [Event.destroy, Event.unlinkStart path],
     RespBody.empty, some e⟩
  | Except.ok entries =>
    if env.finalizeOk then
      ⟨evV ++ Event.writeHead 200 :: rF.1 ++ [Event.finalizeArchive],
       RespBody.archiveStream entries, none⟩
    else
      ⟨evV ++ Event.writeHead 200 :: rF.1 ++ [Event.destroy, Event.unlinkStart path],
       RespBody.empty, some env.finalizeErr⟩

/-- The storage location of one cache entry: `join("noname", asset)` on the
POSIX deployment platform (line 422). -/
def cachePath (owner repo version : String) (fileList : List String) : String :=
  "noname/" ++ assetName owner repo version (generateHashFromArray fileList)

/-- The listener after the artifact name is assigned (lines 421-455). -/
def afterVersion {β : Type} (env : Env β) (owner repo version : String) (fileList : List String)
    (evV : List Event) : HandlerResult β :=
  let path := cachePath owner repo version fileList
  if env.pathExists path then
    if env.headerOk then
      ⟨evV ++ [Event.writeHead 200], RespBody.cacheStream (env.content path), none⟩
    else
      ⟨evV ++ [Event.writeHead 500, Event.endResponse, Event.unlinkStart path],
       RespBody.empty, some env.headerErr⟩
  else
    if env.headerOk then
      missBuild env owner repo version fileList evV path
    else
      ⟨evV ++ [Event.writeHead 500, Event.endResponse, Event.unlinkStart path],
       RespBody.empty, some env.headerErr⟩

/-- Dispatch on the outcome of version resolution: a failure there is caught
with `asset` still the empty string, so no unlink is invoked. -/
def handlerBody {β : Type} (env : Env β) (owner repo : String) (fileList : List String) :
    List Event × Except String String → HandlerResult β
  | (evV, Except.error e) =>
    ⟨evV ++ [Event.writeHead 500, Event.endResponse], RespBody.empty, some e⟩
  | (evV, Except.ok version) => afterVersion env owner repo version fileList evV

/-- Embedding of `nonameRequestListener` (src/noname.ts lines 387-467), for one
parsed POST payload. -/
def nonameRequestListener {β : Type} (env : Env β) (noname : Noname) : HandlerResult β :=
  if noname.action = "downloadAssets" then
    handlerBody env (jsOr noname.owner "libccy") (jsOr noname.repo "noname") noname.fileList
      (resolveVersionEv env.tags noname.version)
  else
    ⟨[Event.writeHead 400, Event.endResponse], RespBody.empty, none⟩

/-- First status written on the response, if any. -/
def firstStatus : List Event → Option Nat
  | [] => none
  | Event.writeHead n :: _ => some n
  | _ :: evs => firstStatus evs

/-- The attempt events `fetchAttempt url s, …, fetchAttempt url (s+n-1)`. -/
def attemptEvs (url : String) : Nat → Nat → List Event
  | _, 0 => []
  | s, n + 1 => Event.fetchAttempt url s :: attemptEvs url (s + 1) n

/-- Decidable substring containment on the underlying character lists, used to
state whether an error message names a file. -/
def listHasPre : List Char → List Char → Bool
  | _, [] => true
  | [], _ :: _ => false
  | c :: cs, p :: ps => c = p && listHasPre cs ps

def listHasSub (hay pat : List Char) : Bool :=
  match hay with
  | [] => pat.isEmpty
  | _ :: cs => listHasPre hay pat || listHasSub cs pat

def strContainsSub (hay pat : String) : Bool := listHasSub hay.data pat.data

/-- The lowercase hexadecimal alphabet, the image of the sixteen digit values
under the digit rendering used by `toString(16)`. -/
def hexChars : List Char := (List.range 16).map Nat.digitChar

/-- Spec-side restatement of the sanitization (§4.3 of the spec): every
occurrence of a character of the listed class in the whole composed name is
replaced by a dash.  Kept separate from `sanitize`, which is translated from
the source regex, so the two can be compared. -/
def forbiddenChars : List Char := ['/', '\\', '?', '%', '*', ':', '|', '\"', '<', '>']

def specSanitize (s : String) : String :=
  String.mk (s.data.map (fun c => if c ∈ forbiddenChars then '-' else c))

def specAssetName (owner repo version hash : String) : String :=
  specSanitize ("noname-asset-" ++ owner ++ "-" ++ repo ++ "-" ++ version ++ "-" ++ hash ++ ".zip")

/- ===== getNoname, the buffered variant (src/noname.ts lines 94-149) ===== -/

/-- `EOL` from node:os, on the POSIX platform of the deployment. -/
def osEOL : String := "\n"

/-- Version resolution of the buffered variant (lines 47-59); its messages
name the queried URL. -/
def getLatestVersionFromGitHubV1 (owner repo : String) :
    Except Unit (List String) → Except String String
  | Except.error _ =>
    Except.error ("Failed to fetch tags from https://api.github.com/repos/" ++ owner ++ "/" ++
      repo ++ "/tags")
  | Except.ok tags =>
    match firstNonSentinel tags with
    | some t => Except.ok t
    | none =>
      Except.error ("No valid tags found in https://api.github.com/repos/" ++ owner ++ "/" ++
        repo ++ "/tags")

/-- The raw-content URL of the buffered variant (line 112, no mirror prefix). -/
def rawUrlV1 (owner repo version file : String) : String :=
  "https://raw.githubusercontent.com/" ++ owner ++ "/" ++ repo ++ "/" ++ version ++ "/" ++ file

/-- The retry loop of `fetchArrayBuffer` (lines 77-92), collecting the message
of every failed attempt for the terminal error. -/
def fetchArrayBufferGo {β : Type} (att : Nat → Except String β) (input : String)
    (retryCount : Nat) : Nat → List String → Nat → Except String β
  | _, errors, 0 =>
    let base := "Failed to fetch array buffer of " ++ input ++ " after " ++
      toString retryCount ++ " attempts"
    Except.error (if errors.isEmpty then base
      else base ++ String.join (errors.map (fun e => osEOL ++ e)))
  | repetition, errors, remaining + 1 =>
    match att repetition with
    | Except.ok b => Except.ok b
    | Except.error e =>
      fetchArrayBufferGo att input retryCount (repetition + 1) (errors ++ [e]) remaining

def fetchArrayBuffer {β : Type} (att : Nat → Except String β) (input : String)
    (retryCount : Nat) : Except String β :=
  fetchArrayBufferGo att input retryCount 0 [] retryCount

/-- External world of one `getNoname` call; each attempt either yields the
body or throws an Error whose message is recorded. -/
structure GEnv (β : Type) where
  tags : Except Unit (List String)
  attempt : String → Nat → Except String β

/-- Body of the buffered Response: the generated zip or an error message. -/
inductive GetBody (β : Type) where
  | zipEntries (entries : List (String × β))
  | text (s : String)
deriving DecidableEq

structure GetResult (β : Type) where
  status : Nat
  body : Option (GetBody β)
deriving DecidableEq

/-- The fetch loop of `getNoname` (lines 109-122), sequential because the
module-level limiter of the buffered variant holds a single permit. -/
def gFetchAll {β : Type} (att : String → Nat → Except String β) (owner repo version : String) :
    List String → Except String (List (String × β))
  | [] => Except.ok []
  | f :: fs =>
    match fetchArrayBuffer (att (rawUrlV1 owner repo version f))
        (rawUrlV1 owner repo version f) 5 with
    | Except.error e => Except.error e
    | Except.ok b =>
      match gFetchAll att owner repo version fs with
      | Except.error e => Except.error e
      | Except.ok rest => Except.ok ((f, b) :: rest)

/-- Embedding of `getNoname` (lines 94-149): on any caught error the Response
has status 500 and the error message as its body. -/
def getNoname {β : Type} (genv : GEnv β) (noname : Noname) : GetResult β :=
  if noname.action = "downloadAssets" then
    let owner := jsOr noname.owner "libccy"
    let repo := jsOr noname.repo "noname"
    let rv :=
      match noname.version with
      | some v => if v = "" then getLatestVersionFromGitHubV1 owner repo genv.tags
                  else Except.ok v
      | none => getLatestVersionFromGitHubV1 owner repo genv.tags
    match rv with
    | Except.error e => ⟨500, some (GetBody.text e)⟩
    | Except.ok version =>
      match gFetchAll genv.attempt owner repo version noname.fileList with
      | Except.error e => ⟨500, some (GetBody.text e)⟩
      | Except.ok entries => ⟨200, some (GetBody.zipEntries entries)⟩
  else ⟨400, none⟩

/- ===== The fetch scheduler (p-limit, src/noname.ts line 294) ===== -/

/-- The fetch-concurrency ceiling: a single module-level constant, created once
by `pLimit(16)` and shared by every fetch of every request. -/
def limitPermits : Nat := 16

/-- Counters of one limiter: jobs not yet started and jobs outstanding. -/
structure SchedState where
  pending : Nat
  active : Nat
deriving DecidableEq

/-- The permit discipline of the limiter: a queued job starts only while fewer
than `lim` jobs are outstanding; an outstanding job may finish at any time. -/
inductive SchedStep (lim : Nat) : SchedState → SchedState → Prop where
  | start (p a : Nat) : a < lim → 0 < p → SchedStep lim ⟨p, a⟩ ⟨p - 1, a + 1⟩
  | finish (p a : Nat) : 0 < a → SchedStep lim ⟨p, a⟩ ⟨p, a - 1⟩

/-- States reachable by interleavings of the limiter. -/
def SchedReach (lim : Nat) : SchedState → SchedState → Prop :=
  Relation.ReflTransGen (SchedStep lim)

/- ===== Concrete inputs used by witnesses and counterexamples ===== -/

/-- A world in which every raw-content fetch fails on every attempt. -/
def envC1 : Env Nat :=
  ⟨Except.ok ["v1"], fun _ _ => none, fun _ => false, fun _ => 0, true, "bad header", true,
   "finalize failed"⟩

def reqC1 : Noname := ⟨"downloadAssets", some "o", some "r", some "v", ["foo.js"]⟩

/-- A world in which exactly the file c.js fails on every attempt. -/
def envC3 : Env Nat :=
  ⟨Except.ok ["v1"], fun url _ => if url = rawUrl "o" "r" "v" "c.js" then none else some 1,
   fun _ => false, fun _ => 0, true, "bad header", true, "finalize failed"⟩

def reqC3 : Noname := ⟨"downloadAssets", some "o", some "r", some "v", ["a.js", "b.js", "c.js"]⟩

def pathC3 : String := cachePath "o" "r" "v" ["a.js", "b.js", "c.js"]

/-- A world in which the requested bundle already exists with content 7. -/
def envC4 : Env Nat :=
  ⟨Except.ok [], fun _ _ => none, fun _ => true, fun _ => 7, true, "bad header", true,
   "finalize failed"⟩

def reqC4 : Noname := ⟨"downloadAssets", some "o", some "r", some "v", ["f.js"]⟩

def pathC4 : String := cachePath "o" "r" "v" ["f.js"]

def envC5 : Env Nat :=
  ⟨Except.ok ["v1998", "v2.0", "v1.0"], fun _ _ => some 1, fun _ => true, fun _ => 0, true,
   "bad header", true, "finalize failed"⟩

def reqC5 : Noname := ⟨"downloadAssets", none, none, none, []⟩

/-- A world in which the tag-list request fails, with no version supplied. -/
def envC7 : Env Nat :=
  ⟨Except.error (), fun _ _ => none, fun _ => false, fun _ => 0, true, "bad header", true,
   "finalize failed"⟩

def reqC7 : Noname := ⟨"downloadAssets", none, none, none, ["f.js"]⟩

def genvC7 : GEnv Nat := ⟨Except.error (), fun _ _ => Except.error "boom"⟩

/-- A world in which the cache entry exists but `res.writeHead` throws. -/
def envC9 : Env Nat :=
  ⟨Except.ok [], fun _ _ => some 0, fun _ => true, fun _ => 0, false,
   "Invalid character in header content", true, "finalize failed"⟩

def reqC9 : Noname := ⟨"downloadAssets", some "o", some "r", some "v", ["f.js"]⟩

def pathC9 : String := cachePath "o" "r" "v" ["f.js"]

def envC10 : Env Nat :=
  ⟨Except.ok [], fun _ _ => none, fun _ => false, fun _ => 0, true, "bad header", true,
   "finalize failed"⟩

def reqC10 : Noname := ⟨"downloadAssets", some "o", some "r", some "v", []⟩

/- ===== Helper lemmas: the retry loop ===== -/

theorem attemptEvs_length (url : String) : ∀ (n s : Nat), (attemptEvs url s n).length = n := by
  intro n
  induction n with
  | zero => intro s; rfl
  | succ n ih => intro s; simp [attemptEvs, ih]

theorem fetchBodyGo_allfail {β : Type} (att : Nat → Option β) (url : String) (rc : Nat) :
    ∀ (n r : Nat), (∀ k, r ≤ k → k < r + n → att k = none) →
      fetchBodyGo att url rc r n =
        (attemptEvs url r n,
         Except.error ("Failed to fetch body after " ++ toString rc ++ " attempts")) := by
  intro n
  induction n with
  | zero => intro r _; rfl
  | succ n ih =>
    intro r h
    have h0 : att r = none := h r (Nat.le_refl r) (by omega)
    have hrec := ih (r + 1) (fun k hk1 hk2 => h k (by omega) (by omega))
    simp [fetchBodyGo, h0, attemptEvs, hrec]

theorem fetchBodyGo_firstSuccess {β : Type} (att : Nat → Option β) (url : String) (rc : Nat) :
    ∀ (j n r : Nat) (b : β), j < n → att (r + j) = some b →
      (∀ i, i < j → att (r + i) = none) →
      fetchBodyGo att url rc r n = (attemptEvs url r (j + 1), Except.ok b) := by
  intro j
  induction j with
  | zero =>
    intro n r b hn hs _
    cases n with
    | zero => omega
    | succ m =>
      rw [Nat.add_zero] at hs
      simp [fetchBodyGo, hs, attemptEvs]
  | succ j ih =>
    intro n r b hn hs hnone
    cases n with
    | zero => omega
    | succ m =>
      have h0 : att r = none := by
        have := hnone 0 (by omega)
        simpa using this
      have hrec := ih m (r + 1) b (by omega)
        (by rw [show r + 1 + j = r + (j + 1) by omega]; exact hs)
        (fun i hi => by rw [show r + 1 + i = r + (i + 1) by omega]; exact hnone (i + 1) (by omega))
      simp [fetchBodyGo, h0, attemptEvs, hrec]

theorem fetchBodyGo_events {β : Type} (att : Nat → Option β) (url : String) (rc : Nat) :
    ∀ (n r : Nat) (e : Event), e ∈ (fetchBodyGo att url rc r n).1 →
      ∃ k, e = Event.fetchAttempt url k := by
  intro n
  induction n with
  | zero => intro r e he; simp [fetchBodyGo] at he
  | succ n ih =>
    intro r e he
    cases h : att r with
    | some b =>
      simp [fetchBodyGo, h] at he
      exact ⟨r, he⟩
    | none =>
      simp [fetchBodyGo, h] at he
      rcases he with he | he
      · exact ⟨r, he⟩
      · exact ih (r + 1) e he

theorem fetchBodyGo_error {β : Type} (att : Nat → Option β) (url : String) (rc : Nat) :
    ∀ (n r : Nat) (e : String), (fetchBodyGo att url rc r n).2 = Except.error e →
      e = "Failed to fetch body after " ++ toString rc ++ " attempts" := by
  intro n
  induction n with
  | zero =>
    intro r e he
    simp [fetchBodyGo] at he
    exact he.symm
  | succ n ih =>
    intro r e he
    cases h : att r with
    | some b => simp [fetchBodyGo, h] at he
    | none =>
      simp [fetchBodyGo, h] at he
      exact ih (r + 1) e he

theorem fetchBody_error {β : Type} (att : Nat → Option β) (url : String) (e : String)
    (he : (fetchBody att url 5).2 = Except.error e) :
    e = "Failed to fetch body after 5 attempts" := by
  have := fetchBodyGo_error att url 5 5 0 e he
  simpa using this

theorem fetchBody_allfail {β : Type} (att : Nat → Option β) (url : String)
    (h : ∀ k, k < 5 → att k = none) :
    fetchBody att url 5 =
      (attemptEvs url 0 5, Except.error "Failed to fetch body after 5 attempts") := by
  have := fetchBodyGo_allfail att url 5 5 0 (fun k hk1 hk2 => h k (by omega))
  simpa [fetchBody] using this

theorem fetchBody_firstSuccess {β : Type} (att : Nat → Option β) (url : String) (j : Nat) (b : β)
    (hj : j < 5) (hs : att j = some b) (hnone : ∀ i, i < j → att i = none) :
    fetchBody att url 5 = (attemptEvs url 0 (j + 1), Except.ok b) := by
  have := fetchBodyGo_firstSuccess att url 5 j 5 0 b hj (by simpa using hs)
    (fun i hi => by simpa using hnone i hi)
  simpa [fetchBody] using this

theorem fetchBody_events {β : Type} (att : Nat → Option β) (url : String) (e : Event)
    (he : e ∈ (fetchBody att url 5).1) : ∃ k, e = Event.fetchAttempt url k :=
  fetchBodyGo_events att url 5 5 0 e he

/- ===== Helper lemmas: the fetch phase ===== -/

theorem fetchPhase_events {β : Type} (att : String → Nat → Option β) (o r v : String) :
    ∀ (files : List String) (e : Event), e ∈ (fetchPhase att o r v files).1 →
      (∃ u k, e = Event.fetchAttempt u k) ∨ ∃ f, e = Event.append f := by
  intro files
  induction files with
  | nil => intro e he; simp [fetchPhase] at he
  | cons g gs ih =>
    intro e he
    rcases hF : (fetchBody (att (rawUrl o r v g)) (rawUrl o r v g) 5).2 with eF | b
    · rw [fetchPhase] at he
      simp only [hF] at he
      rcases fetchBody_events _ _ e he with ⟨k, hk⟩
      exact Or.inl ⟨_, k, hk⟩
    · rw [fetchPhase] at he
      simp only [hF] at he
      rcases hR : (fetchPhase att o r v gs).2 with eR | rest <;>
        simp only [hR, List.mem_append, List.mem_cons] at he <;>
        · rcases he with he | he | he
          · rcases fetchBody_events _ _ e he with ⟨k, hk⟩
            exact Or.inl ⟨_, k, hk⟩
          · exact Or.inr ⟨g, he⟩
          · exact ih e he

theorem fetchPhase_fails {β : Type} (att : String → Nat → Option β) (o rp v : String) :
    ∀ (files : List String) (f : String), f ∈ files →
      (∀ k, k < 5 → att (rawUrl o rp v f) k = none) →
      (fetchPhase att o rp v files).2 = Except.error "Failed to fetch body after 5 attempts" := by
  intro files
  induction files with
  | nil => intro f hf; simp at hf
  | cons g gs ih =>
    intro f hf hnone
    rcases hF : (fetchBody (att (rawUrl o rp v g)) (rawUrl o rp v g) 5).2 with eF | b
    · rw [fetchPhase]
      simp only [hF]
      rw [fetchBody_error _ _ eF hF]
    · have hfg : f ≠ g := by
        intro hfg
        subst hfg
        rw [fetchBody_allfail _ _ hnone] at hF
        simp at hF
      have hftail : f ∈ gs := by
        rcases List.mem_cons.mp hf with h | h
        · exact absurd h hfg
        · exact h
      have hrec := ih f hftail hnone
      rw [fetchPhase]
      simp only [hF, hrec]

theorem fetchPhase_ok_names {β : Type} (att : String → Nat → Option β) (o rp v : String) :
    ∀ (files : List String) (entries : List (String × β)),
      (fetchPhase att o rp v files).2 = Except.ok entries →
      entries.map Prod.fst = files := by
  intro files
  induction files with
  | nil =>
    intro entries he
    simp [fetchPhase] at he
    simp [← he]
  | cons g gs ih =>
    intro entries he
    rw [fetchPhase] at he
    rcases hF : (fetchBody (att (rawUrl o rp v g)) (rawUrl o rp v g) 5).2 with eF | b
    · simp [hF] at he
    · simp only [hF] at he
      rcases hR : (fetchPhase att o rp v gs).2 with eR | rest
      · simp [hR] at he
      · simp only [hR, Except.ok.injEq] at he
        subst he
        simp [ih rest hR]

/- ===== Helper lemmas: version resolution events ===== -/

theorem resolveVersionEv_evs (t : Except Unit (List String)) (ov : Option String) :
    (resolveVersionEv t ov).1 = [] ∨ (resolveVersionEv t ov).1 = [Event.fetchTags] := by
  cases ov with
  | none => exact Or.inr rfl
  | some v =>
    by_cases hv : v = "" <;> simp [resolveVersionEv, hv]

theorem firstStatus_resolve (t : Except Unit (List String)) (ov : Option String)
    (l : List Event) (s : Nat) :
    firstStatus ((resolveVersionEv t ov).1 ++ Event.writeHead s :: l) = some s := by
  rcases resolveVersionEv_evs t ov with h | h <;> rw [h] <;> rfl

theorem resolve_no_unlinkDone (t : Except Unit (List String)) (ov : Option String) (p : String) :
    Event.unlinkDone p ∉ (resolveVersionEv t ov).1 := by
  rcases resolveVersionEv_evs t ov with h | h <;> simp [h]

theorem resolve_no_destroy (t : Except Unit (List String)) (ov : Option String) :
    Event.destroy ∉ (resolveVersionEv t ov).1 := by
  rcases resolveVersionEv_evs t ov with h | h <;> simp [h]

theorem resolve_no_attempt (t : Except Unit (List String)) (ov : Option String)
    (u : String) (k : Nat) :
    Event.fetchAttempt u k ∉ (resolveVersionEv t ov).1 := by
  rcases resolveVersionEv_evs t ov with h | h <;> simp [h]

theorem phase_no_unlinkDone {β : Type} (att : String → Nat → Option β) (o rp v : String)
    (files : List String) (p : String) :
    Event.unlinkDone p ∉ (fetchPhase att o rp v files).1 := by
  intro hmem
  rcases fetchPhase_events att o rp v files _ hmem with ⟨u, k, h⟩ | ⟨f, h⟩ <;> cases h

theorem phase_no_destroy {β : Type} (att : String → Nat → Option β) (o rp v : String)
    (files : List String) :
    Event.destroy ∉ (fetchPhase att o rp v files).1 := by
  intro hmem
  rcases fetchPhase_events att o rp v files _ hmem with ⟨u, k, h⟩ | ⟨f, h⟩ <;> cases h

theorem phase_no_tags {β : Type} (att : String → Nat → Option β) (o rp v : String)
    (files : List String) :
    Event.fetchTags ∉ (fetchPhase att o rp v files).1 := by
  intro hmem
  rcases fetchPhase_events att o rp v files _ hmem with ⟨u, k, h⟩ | ⟨f, h⟩ <;> cases h

theorem phase_no_finalize {β : Type} (att : String → Nat → Option β) (o rp v : String)
    (files : List String) :
    Event.finalizeArchive ∉ (fetchPhase att o rp v files).1 := by
  intro hmem
  rcases fetchPhase_events att o rp v files _ hmem with ⟨u, k, h⟩ | ⟨f, h⟩ <;> cases h

/- ===== Helper lemmas: the listener branches ===== -/

theorem listener_action {β : Type} (env : Env β) (noname : Noname)
    (hact : noname.action = "downloadAssets") :
    nonameRequestListener env noname =
      handlerBody env (jsOr noname.owner "libccy") (jsOr noname.repo "noname") noname.fileList
        (resolveVersionEv env.tags noname.version) := by
  simp [nonameRequestListener, hact]

theorem listener_error_unlink {β : Type} (env : Env β) (noname : Noname) (v e : String)
    (evs : List Event)
    (hact : noname.action = "downloadAssets")
    (hres : resolveVersionEv env.tags noname.version = (evs, Except.ok v))
    (herr : (nonameRequestListener env noname).errorMsg = some e) :
    Event.unlinkStart (cachePath (jsOr noname.owner "libccy") (jsOr noname.repo "noname") v
        noname.fileList) ∈ (nonameRequestListener env noname).events ∧
    Event.unlinkDone (cachePath (jsOr noname.owner "libccy") (jsOr noname.repo "noname") v
        noname.fileList) ∉ (nonameRequestListener env noname).events := by
  have hevs : evs = (resolveVersionEv env.tags noname.version).1 := by rw [hres]
  have hnd : Event.unlinkDone (cachePath (jsOr noname.owner "libccy") (jsOr noname.repo "noname")
      v noname.fileList) ∉ evs := by
    rw [hevs]
    exact resolve_no_unlinkDone _ _ _
  rw [listener_action env noname hact, hres] at herr ⊢
  cases hex : env.pathExists (cachePath (jsOr noname.owner "libccy")
      (jsOr noname.repo "noname") v noname.fileList) with
  | true =>
    cases hho : env.headerOk with
    | true => simp [handlerBody, afterVersion, hex, hho] at herr
    | false => simp [handlerBody, afterVersion, hex, hho, hnd]
  | false =>
    cases hho : env.headerOk with
    | false => simp [handlerBody, afterVersion, hex, hho, hnd]
    | true =>
      rcases hF : (fetchPhase env.attempt (jsOr noname.owner "libccy")
          (jsOr noname.repo "noname") v noname.fileList).2 with eF | entries
      · simp [handlerBody, afterVersion, missBuild, hex, hho, hF, hnd, phase_no_unlinkDone]
      · cases hfin : env.finalizeOk with
        | true => simp [handlerBody, afterVersion, missBuild, hex, hho, hF, hfin] at herr
        | false =>
          simp [handlerBody, afterVersion, missBuild, hex, hho, hF, hfin, hnd,
            phase_no_unlinkDone]

theorem handlerBody_err {β : Type} (env : Env β) (o r : String) (fl : List String)
    (evs : List Event) (e : String) :
    handlerBody env o r fl (evs, Except.error e) =
      ⟨evs ++ [Event.writeHead 500, Event.endResponse], RespBody.empty, some e⟩ := rfl

theorem handlerBody_ok {β : Type} (env : Env β) (o r : String) (fl : List String)
    (evs : List Event) (v : String) :
    handlerBody env o r fl (evs, Except.ok v) = afterVersion env o r v fl evs := rfl

theorem afterVersion_hit_ok {β : Type} (env : Env β) (o r v : String) (fl : List String)
    (evV : List Event) (hex : env.pathExists (cachePath o r v fl) = true)
    (hho : env.headerOk = true) :
    afterVersion env o r v fl evV =
      ⟨evV ++ [Event.writeHead 200], RespBody.cacheStream (env.content (cachePath o r v fl)),
       none⟩ := by
  simp [afterVersion, hex, hho]

theorem afterVersion_hit_badheader {β : Type} (env : Env β) (o r v : String) (fl : List String)
    (evV : List Event) (hex : env.pathExists (cachePath o r v fl) = true)
    (hho : env.headerOk = false) :
    afterVersion env o r v fl evV =
      ⟨evV ++ [Event.writeHead 500, Event.endResponse, Event.unlinkStart (cachePath o r v fl)],
       RespBody.empty, some env.headerErr⟩ := by
  simp [afterVersion, hex, hho]

theorem afterVersion_miss_badheader {β : Type} (env : Env β) (o r v : String) (fl : List String)
    (evV : List Event) (hex : env.pathExists (cachePath o r v fl) = false)
    (hho : env.headerOk = false) :
    afterVersion env o r v fl evV =
      ⟨evV ++ [Event.writeHead 500, Event.endResponse, Event.unlinkStart (cachePath o r v fl)],
       RespBody.empty, some env.headerErr⟩ := by
  simp [afterVersion, hex, hho]

theorem afterVersion_miss_ok {β : Type} (env : Env β) (o r v : String) (fl : List String)
    (evV : List Event) (hex : env.pathExists (cachePath o r v fl) = false)
    (hho : env.headerOk = true) :
    afterVersion env o r v fl evV = missBuild env o r v fl evV (cachePath o r v fl) := by
  simp [afterVersion, hex, hho]

theorem missBuild_fail {β : Type} (env : Env β) (o r v : String) (fl : List String)
    (evV : List Event) (p : String) (eF : String)
    (hF : (fetchPhase env.attempt o r v fl).2 = Except.error eF) :
    missBuild env o r v fl evV p =
      ⟨evV ++ Event.writeHead 200 ::
          ((fetchPhase env.attempt o r v fl).1 ++ [Event.destroy, Event.unlinkStart p]),
       RespBody.empty, some eF⟩ := by
  simp [missBuild, hF]

theorem missBuild_ok_fin {β : Type} (env : Env β) (o r v : String) (fl : List String)
    (evV : List Event) (p : String) (entries : List (String × β))
    (hF : (fetchPhase env.attempt o r v fl).2 = Except.ok entries)
    (hfin : env.finalizeOk = true) :
    missBuild env o r v fl evV p =
      ⟨evV ++ Event.writeHead 200 ::
          ((fetchPhase env.attempt o r v fl).1 ++ [Event.finalizeArchive]),
       RespBody.archiveStream entries, none⟩ := by
  simp [missBuild, hF, hfin]

theorem missBuild_ok_nofin {β : Type} (env : Env β) (o r v : String) (fl : List String)
    (evV : List Event) (p : String) (entries : List (String × β))
    (hF : (fetchPhase env.attempt o r v fl).2 = Except.ok entries)
    (hfin : env.finalizeOk = false) :
    missBuild env o r v fl evV p =
      ⟨evV ++ Event.writeHead 200 ::
          ((fetchPhase env.attempt o r v fl).1 ++ [Event.destroy, Event.unlinkStart p]),
       RespBody.empty, some env.finalizeErr⟩ := by
  simp [missBuild, hF, hfin]

theorem listener_error_shape {β : Type} (env : Env β) (noname : Noname) (e : String)
    (hact : noname.action = "downloadAssets")
    (herr : (nonameRequestListener env noname).errorMsg = some e) :
    (firstStatus (nonameRequestListener env noname).events = some 500 ∧
     (nonameRequestListener env noname).body = RespBody.empty ∧
     Event.destroy ∉ (nonameRequestListener env noname).events) ∨
    (firstStatus (nonameRequestListener env noname).events = some 200 ∧
     Event.destroy ∈ (nonameRequestListener env noname).events) := by
  rw [listener_action env noname hact] at herr ⊢
  rcases hres : resolveVersionEv env.tags noname.version with ⟨evs, rv⟩
  have hevs : evs = (resolveVersionEv env.tags noname.version).1 := by rw [hres]
  have hnd : Event.destroy ∉ evs := by
    rw [hevs]
    exact resolve_no_destroy _ _
  cases rv with
  | error e2 =>
    rw [hres] at herr
    rw [handlerBody_err] at herr ⊢
    left
    refine ⟨?_, rfl, ?_⟩
    · rw [hevs]
      exact firstStatus_resolve _ _ _ _
    · simp [hnd]
  | ok v =>
    rw [hres] at herr
    rw [handlerBody_ok] at herr ⊢
    cases hex : env.pathExists (cachePath (jsOr noname.owner "libccy")
        (jsOr noname.repo "noname") v noname.fileList) with
    | true =>
      cases hho : env.headerOk with
      | true =>
        rw [afterVersion_hit_ok env _ _ _ _ _ hex hho] at herr
        simp at herr
      | false =>
        rw [afterVersion_hit_badheader env _ _ _ _ _ hex hho] at herr ⊢
        left
        refine ⟨?_, rfl, ?_⟩
        · rw [hevs]
          exact firstStatus_resolve _ _ _ _
        · simp [hnd]
    | false =>
      cases hho : env.headerOk with
      | false =>
        rw [afterVersion_miss_badheader env _ _ _ _ _ hex hho] at herr ⊢
        left
        refine ⟨?_, rfl, ?_⟩
        · rw [hevs]
          exact firstStatus_resolve _ _ _ _
        · simp [hnd]
      | true =>
        rw [afterVersion_miss_ok env _ _ _ _ _ hex hho] at herr ⊢
        rcases hF : (fetchPhase env.attempt (jsOr noname.owner "libccy")
            (jsOr noname.repo "noname") v noname.fileList).2 with eF | entries
        · rw [missBuild_fail env _ _ _ _ _ _ _ hF] at herr ⊢
          right
          refine ⟨?_, ?_⟩
          · rw [hevs]
            exact firstStatus_resolve _ _ _ _
          · simp
        · cases hfin : env.finalizeOk with
          | true =>
            rw [missBuild_ok_fin env _ _ _ _ _ _ _ hF hfin] at herr
            simp at herr
          | false =>
            rw [missBuild_ok_nofin env _ _ _ _ _ _ _ hF hfin] at herr ⊢
            right
            refine ⟨?_, ?_⟩
            · rw [hevs]
              exact firstStatus_resolve _ _ _ _
            · simp

theorem listener_cache_hit {β : Type} (env : Env β) (noname : Noname) (v : String)
    (evs : List Event)
    (hact : noname.action = "downloadAssets")
    (hres : resolveVersionEv env.tags noname.version = (evs, Except.ok v))
    (hex : env.pathExists (cachePath (jsOr noname.owner "libccy") (jsOr noname.repo "noname") v
        noname.fileList) = true)
    (hho : env.headerOk = true) :
    nonameRequestListener env noname =
      ⟨evs ++ [Event.writeHead 200],
       RespBody.cacheStream (env.content (cachePath (jsOr noname.owner "libccy")
         (jsOr noname.repo "noname") v noname.fileList)), none⟩ := by
  rw [listener_action env noname hact, hres, handlerBody_ok,
    afterVersion_hit_ok env _ _ _ _ _ hex hho]

theorem listener_miss_success {β : Type} (env : Env β) (noname : Noname) (v : String)
    (evs : List Event) (entries : List (String × β))
    (hact : noname.action = "downloadAssets")
    (hres : resolveVersionEv env.tags noname.version = (evs, Except.ok v))
    (hex : env.pathExists (cachePath (jsOr noname.owner "libccy") (jsOr noname.repo "noname") v
        noname.fileList) = false)
    (hho : env.headerOk = true)
    (hfin : env.finalizeOk = true)
    (hF : (fetchPhase env.attempt (jsOr noname.owner "libccy") (jsOr noname.repo "noname") v
        noname.fileList).2 = Except.ok entries) :
    nonameRequestListener env noname =
      ⟨evs ++ Event.writeHead 200 ::
          ((fetchPhase env.attempt (jsOr noname.owner "libccy") (jsOr noname.repo "noname") v
              noname.fileList).1 ++ [Event.finalizeArchive]),
       RespBody.archiveStream entries, none⟩ := by
  rw [listener_action env noname hact, hres, handlerBody_ok,
    afterVersion_miss_ok env _ _ _ _ _ hex hho, missBuild_ok_fin env _ _ _ _ _ _ _ hF hfin]

theorem listener_miss_fetchfail {β : Type} (env : Env β) (noname : Noname) (v : String)
    (evs : List Event) (eF : String)
    (hact : noname.action = "downloadAssets")
    (hres : resolveVersionEv env.tags noname.version = (evs, Except.ok v))
    (hex : env.pathExists (cachePath (jsOr noname.owner "libccy") (jsOr noname.repo "noname") v
        noname.fileList) = false)
    (hho : env.headerOk = true)
    (hF : (fetchPhase env.attempt (jsOr noname.owner "libccy") (jsOr noname.repo "noname") v
        noname.fileList).2 = Except.error eF) :
    nonameRequestListener env noname =
      ⟨evs ++ Event.writeHead 200 ::
          ((fetchPhase env.attempt (jsOr noname.owner "libccy") (jsOr noname.repo "noname") v
              noname.fileList).1 ++
            [Event.destroy, Event.unlinkStart (cachePath (jsOr noname.owner "libccy")
              (jsOr noname.repo "noname") v noname.fileList)]),
       RespBody.empty, some eF⟩ := by
  rw [listener_action env noname hact, hres, handlerBody_ok,
    afterVersion_miss_ok env _ _ _ _ _ hex hho, missBuild_fail env _ _ _ _ _ _ _ hF]

theorem listener_tags_count {β : Type} (env : Env β) (noname : Noname)
    (hact : noname.action = "downloadAssets") (hv : noname.version = none) :
    ((nonameRequestListener env noname).events.count Event.fetchTags) = 1 := by
  rw [listener_action env noname hact, hv]
  rw [show resolveVersionEv env.tags none =
    ([Event.fetchTags], getLatestVersionFromGitHub env.tags) from rfl]
  cases hrv : getLatestVersionFromGitHub env.tags with
  | error e2 =>
    rw [handlerBody_err]
    rfl
  | ok v =>
    rw [handlerBody_ok]
    cases hex : env.pathExists (cachePath (jsOr noname.owner "libccy")
        (jsOr noname.repo "noname") v noname.fileList) with
    | true =>
      cases hho : env.headerOk with
      | true =>
        rw [afterVersion_hit_ok env _ _ _ _ _ hex hho]
        rfl
      | false =>
        rw [afterVersion_hit_badheader env _ _ _ _ _ hex hho]
        rfl
    | false =>
      cases hho : env.headerOk with
      | false =>
        rw [afterVersion_miss_badheader env _ _ _ _ _ hex hho]
        rfl
      | true =>
        rw [afterVersion_miss_ok env _ _ _ _ _ hex hho]
        have hphp := phase_no_tags env.attempt (jsOr noname.owner "libccy")
          (jsOr noname.repo "noname") v noname.fileList
        have hphz : ((fetchPhase env.attempt (jsOr noname.owner "libccy")
            (jsOr noname.repo "noname") v noname.fileList).1.count Event.fetchTags) = 0 :=
          List.count_eq_zero.mpr hphp
        rcases hF : (fetchPhase env.attempt (jsOr noname.owner "libccy")
            (jsOr noname.repo "noname") v noname.fileList).2 with eF | entries
        · rw [missBuild_fail env _ _ _ _ _ _ _ hF]
          simp [List.count_append, List.count_cons, hphz]
        · cases hfin : env.finalizeOk with
          | true =>
            rw [missBuild_ok_fin env _ _ _ _ _ _ _ hF hfin]
            simp [List.count_append, List.count_cons, hphz]
          | false =>
            rw [missBuild_ok_nofin env _ _ _ _ _ _ _ hF hfin]
            simp [List.count_append, List.count_cons, hphz]

/- ===== Helper lemmas: hex rendering of the digest ===== -/

theorem foldl_append_str (l : List String) :
    ∀ (a b : String), l.foldl (fun r s => r ++ s) (a ++ b) =
      a ++ l.foldl (fun r s => r ++ s) b := by
  induction l with
  | nil => intro a b; rfl
  | cons c cs ih =>
    intro a b
    simp only [List.foldl]
    rw [String.append_assoc, ih]

theorem join_cons (s : String) (l : List String) :
    String.join (s :: l) = s ++ String.join l := by
  show List.foldl (fun r t => r ++ t) ("" ++ s) l = s ++ List.foldl (fun r t => r ++ t) "" l
  have h1 : ("" ++ s : String) = s ++ "" := by simp
  rw [h1, foldl_append_str]

theorem bytesToHex_cons (b : Nat) (bs : List Nat) :
    bytesToHex (b :: bs) = jsByteHex b ++ bytesToHex bs := by
  show String.join (jsByteHex b :: bs.map jsByteHex) = _
  rw [join_cons]
  rfl

theorem jsByteHex_fin : ∀ b : Fin 256,
    (jsByteHex b.1).length = 2 ∧ ((jsByteHex b.1).data.all (fun c => decide (c ∈ hexChars))) = true := by
  decide

theorem jsByteHex_length (b : Nat) (hb : b < 256) : (jsByteHex b).length = 2 :=
  (jsByteHex_fin ⟨b, hb⟩).1

theorem jsByteHex_chars (b : Nat) (hb : b < 256) : ∀ c ∈ (jsByteHex b).data, c ∈ hexChars := by
  intro c hc
  have h := (jsByteHex_fin ⟨b, hb⟩).2
  have := List.all_eq_true.mp h c hc
  exact of_decide_eq_true this

theorem bytesToHex_spec : ∀ (bs : List Nat), (∀ b ∈ bs, b < 256) →
    (bytesToHex bs).length = 2 * bs.length ∧ ∀ c ∈ (bytesToHex bs).data, c ∈ hexChars := by
  intro bs
  induction bs with
  | nil =>
    intro _
    constructor
    · rfl
    · intro c hc
      exact absurd hc (by simp [bytesToHex, String.join])
  | cons b bs ih =>
    intro h
    have hb : b < 256 := h b (List.mem_cons_self b bs)
    have hrest := ih (fun x hx => h x (List.mem_cons_of_mem b hx))
    rw [bytesToHex_cons]
    constructor
    · rw [String.length_append, jsByteHex_length b hb, hrest.1]
      simp [List.length_cons]
      ring
    · intro c hc
      rw [String.data_append] at hc
      rcases List.mem_append.mp hc with hc | hc
      · exact jsByteHex_chars b hb c hc
      · exact hrest.2 c hc

theorem digestBytes_length (s : Hash8) : (digestBytes s).length = 32 := rfl

theorem digestBytes_lt (s : Hash8) : ∀ b ∈ digestBytes s, b < 256 := by
  intro b hb
  simp [digestBytes, digestWords, wordBytes] at hb
  omega

theorem generateHash_len_hex (l : List String) :
    (generateHashFromArray l).length = 64 ∧ ∀ c ∈ (generateHashFromArray l).data, c ∈ hexChars := by
  have hlt : ∀ b ∈ sha256 (utf8Encode (String.join l)), b < 256 := digestBytes_lt _
  have h := bytesToHex_spec (sha256 (utf8Encode (String.join l))) hlt
  have h32 : (sha256 (utf8Encode (String.join l))).length = 32 := digestBytes_length _
  constructor
  · show (bytesToHex (sha256 (utf8Encode (String.join l)))).length = 64
    rw [h.1, h32]
  · exact h.2

/- ===== Helper lemmas: sentinel selection ===== -/

theorem firstNonSentinel_all (ts : List String) (h : ∀ t ∈ ts, t = "v1998") :
    firstNonSentinel ts = none := by
  induction ts with
  | nil => rfl
  | cons t ts ih =>
    have ht : t = "v1998" := h t (List.mem_cons_self t ts)
    simp [firstNonSentinel, ht]
    exact ih (fun x hx => h x (List.mem_cons_of_mem t hx))

theorem firstNonSentinel_first (pre : List String) (t : String) (post : List String)
    (hpre : ∀ x ∈ pre, x = "v1998") (ht : t ≠ "v1998") :
    firstNonSentinel (pre ++ t :: post) = some t := by
  induction pre with
  | nil => simp [firstNonSentinel, ht]
  | cons p ps ih =>
    have hp : p = "v1998" := hpre p (List.mem_cons_self p ps)
    simp only [List.cons_append, firstNonSentinel, hp]
    simp only [ne_eq, not_true_eq_false, if_false]
    exact ih (fun x hx => hpre x (List.mem_cons_of_mem p hx))

/- ===== Helper lemmas: sanitization ===== -/

theorem sanitizeChar_spec (c : Char) :
    sanitizeChar c = if c ∈ forbiddenChars then '-' else c := by
  simp only [sanitizeChar, forbiddenChars, List.mem_cons, List.not_mem_nil, or_false]
  split_ifs <;> simp_all

theorem sanitize_eq_spec (s : String) : sanitize s = specSanitize s := by
  simp only [sanitize, specSanitize]
  congr 1
  exact List.map_congr_left (fun c _ => sanitizeChar_spec c)

theorem sanitizeChar_not_forbidden (c : Char) : sanitizeChar c ∉ forbiddenChars := by
  rw [sanitizeChar_spec]
  split_ifs with h
  · decide
  · exact h

/- ===== Helper lemmas: the buffered variant ===== -/

theorem getNoname_500_body {β : Type} (genv : GEnv β) (noname : Noname)
    (h500 : (getNoname genv noname).status = 500) :
    ∃ m, (getNoname genv noname).body = some (GetBody.text m) := by
  rw [getNoname] at h500 ⊢
  by_cases hact : noname.action = "downloadAssets"
  · simp only [hact, if_true] at h500 ⊢
    rcases hrv : (match noname.version with
      | some v => if v = "" then getLatestVersionFromGitHubV1 (jsOr noname.owner "libccy")
          (jsOr noname.repo "noname") genv.tags
        else Except.ok v
      | none => getLatestVersionFromGitHubV1 (jsOr noname.owner "libccy")
          (jsOr noname.repo "noname") genv.tags) with e | version
    · simp only [hrv] at h500 ⊢
      exact ⟨e, rfl⟩
    · simp only [hrv] at h500 ⊢
      rcases hfa : gFetchAll genv.attempt (jsOr noname.owner "libccy") (jsOr noname.repo "noname")
          version noname.fileList with e | entries
      · simp only [hfa] at h500 ⊢
        exact ⟨e, rfl⟩
      · simp only [hfa] at h500
        simp at h500
  · simp only [hact, if_false] at h500
    simp at h500

/- ===== Helper lemmas: the scheduler invariant ===== -/

theorem schedReach_active_le (lim : Nat) (s t : SchedState)
    (h : SchedReach lim s t) (hs : s.active ≤ lim) : t.active ≤ lim := by
  induction h with
  | refl => exact hs
  | tail h1 h2 ih =>
    cases h2 with
    | start p a ha hp =>
      have hstep : a + 1 ≤ lim := ha
      simpa using hstep
    | finish p a ha =>
      have hb : a ≤ lim := by simpa using ih
      have : a - 1 ≤ lim := Nat.le_trans (Nat.sub_le a 1) hb
      simpa using this

theorem resolve_no_append (t : Except Unit (List String)) (ov : Option String) (f : String) :
    Event.append f ∉ (resolveVersionEv t ov).1 := by
  rcases resolveVersionEv_evs t ov with h | h <;> simp [h]

theorem resolve_no_finalize (t : Except Unit (List String)) (ov : Option String) :
    Event.finalizeArchive ∉ (resolveVersionEv t ov).1 := by
  rcases resolveVersionEv_evs t ov with h | h <;> simp [h]

/- ===== The claims ===== -/

/-- C1, corrected: for every requested file the raw-content fetch is attempted
up to exactly 5 times, succeeding on the first successful attempt; if all 5
attempts for any one file fail, the entire bundling operation fails with the
retry-exhaustion error — whose message states the attempt count but does not
name the file — and no file is silently skipped: a successful build appends
every requested file. -/
theorem C1_fetch_retry :
    (∀ (β : Type) (att : Nat → Option β) (url : String), (∀ k, k < 5 → att k = none) →
      fetchBody att url 5 =
        (attemptEvs url 0 5, Except.error "Failed to fetch body after 5 attempts"))
    ∧ (∀ (β : Type) (att : Nat → Option β) (url : String) (j : Nat) (b : β),
        j < 5 → att j = some b → (∀ i, i < j → att i = none) →
        fetchBody att url 5 = (attemptEvs url 0 (j + 1), Except.ok b))
    ∧ (∀ (β : Type) (env : Env β) (noname : Noname) (v f : String) (evs : List Event),
        noname.action = "downloadAssets" →
        resolveVersionEv env.tags noname.version = (evs, Except.ok v) →
        env.pathExists (cachePath (jsOr noname.owner "libccy") (jsOr noname.repo "noname") v
          noname.fileList) = false →
        env.headerOk = true →
        f ∈ noname.fileList →
        (∀ k, k < 5 → env.attempt (rawUrl (jsOr noname.owner "libccy")
          (jsOr noname.repo "noname") v f) k = none) →
        (nonameRequestListener env noname).errorMsg =
          some "Failed to fetch body after 5 attempts" ∧
        Event.finalizeArchive ∉ (nonameRequestListener env noname).events)
    ∧ (∀ (β : Type) (env : Env β) (noname : Noname) (v : String) (evs : List Event)
        (entries : List (String × β)),
        noname.action = "downloadAssets" →
        resolveVersionEv env.tags noname.version = (evs, Except.ok v) →
        env.pathExists (cachePath (jsOr noname.owner "libccy") (jsOr noname.repo "noname") v
          noname.fileList) = false →
        env.headerOk = true →
        env.finalizeOk = true →
        (fetchPhase env.attempt (jsOr noname.owner "libccy") (jsOr noname.repo "noname") v
          noname.fileList).2 = Except.ok entries →
        (nonameRequestListener env noname).body = RespBody.archiveStream entries ∧
        entries.map Prod.fst = noname.fileList) := by
  refine ⟨?_, ?_, ?_, ?_⟩
  · intro β att url h
    exact fetchBody_allfail att url h
  · intro β att url j b hj hs hnone
    exact fetchBody_firstSuccess att url j b hj hs hnone
  · intro β env noname v f evs hact hres hmiss hho hf hnone
    have hFb : (fetchBody (env.attempt (rawUrl (jsOr noname.owner "libccy")
        (jsOr noname.repo "noname") v f)) (rawUrl (jsOr noname.owner "libccy")
        (jsOr noname.repo "noname") v f) 5).2 =
        Except.error "Failed to fetch body after 5 attempts" := by
      rw [fetchBody_allfail _ _ hnone]
    have hph := fetchPhase_fails env.attempt (jsOr noname.owner "libccy")
      (jsOr noname.repo "noname") v noname.fileList f hf hnone
    rw [listener_miss_fetchfail env noname v evs _ hact hres hmiss hho hph]
    refine ⟨rfl, ?_⟩
    intro hmem
    have hevs : evs = (resolveVersionEv env.tags noname.version).1 := by rw [hres]
    rw [hevs] at hmem
    simp only [List.mem_append, List.mem_cons] at hmem
    rcases hmem with h | h | h
    · exact resolve_no_finalize _ _ h
    · cases h
    · rcases h with h | h
      · exact phase_no_finalize _ _ _ _ _ h
      · simp at h
  · intro β env noname v evs entries hact hres hmiss hho hfin hF
    rw [listener_miss_success env noname v evs entries hact hres hmiss hho hfin hF]
    exact ⟨rfl, fetchPhase_ok_names _ _ _ _ _ entries hF⟩

/-- C1, counterexample to the claim as stated: a request whose single file
foo.js fails all 5 attempts makes the whole operation fail, but the error
message carried by the failure does not contain the file's name. -/
theorem C1_counterexample :
    (nonameRequestListener envC1 reqC1).errorMsg =
      some "Failed to fetch body after 5 attempts" ∧
    strContainsSub "Failed to fetch body after 5 attempts" "foo.js" = false := by
  constructor
  · decide
  · decide

/-- C1, witness: the amended theorem applied at concrete attempt oracles and at
the concrete permanently-failing request. -/
theorem C1_fetch_retry_witness :
    fetchBody (fun _ => (none : Option Nat)) "u" 5 =
      (attemptEvs "u" 0 5, Except.error "Failed to fetch body after 5 attempts") ∧
    fetchBody (fun k => if k = 2 then some 9 else none) "u" 5 =
      (attemptEvs "u" 0 3, Except.ok 9) ∧
    (nonameRequestListener envC1 reqC1).errorMsg =
      some "Failed to fetch body after 5 attempts" ∧
    Event.finalizeArchive ∉ (nonameRequestListener envC1 reqC1).events := by
  have h3 := C1_fetch_retry.2.2.1 Nat envC1 reqC1 "v" "foo.js" [] rfl rfl rfl rfl
    (by decide) (by decide)
  exact ⟨C1_fetch_retry.1 Nat _ "u" (fun k _ => rfl),
    C1_fetch_retry.2.1 Nat _ "u" 2 9 (by omega) rfl (by decide), h3.1, h3.2⟩

/-- C2, corrected: the cache-key derivation is a pure function of the
no-separator concatenation of the ordered file-name list; equal concatenations
(in particular equal lists) yield the identical 64-character lowercase-hex
SHA-256 digest, but lists that differ while concatenating to the same string
collide, so differing ordered lists do not always receive different digests. -/
theorem C2_cache_key :
    (∀ l1 l2 : List String, String.join l1 = String.join l2 →
      generateHashFromArray l1 = generateHashFromArray l2)
    ∧ (∀ l : List String, (generateHashFromArray l).length = 64 ∧
        ∀ c ∈ (generateHashFromArray l).data, c ∈ hexChars)
    ∧ (∃ l1 l2 : List String, l1 ≠ l2 ∧
        generateHashFromArray l1 = generateHashFromArray l2) := by
  refine ⟨?_, generateHash_len_hex, ?_⟩
  · intro l1 l2 h
    show bytesToHex (sha256 (utf8Encode (String.join l1))) = _
    rw [h]
    rfl
  · refine ⟨["ab", "c"], ["a", "bc"], by decide, ?_⟩
    show bytesToHex (sha256 (utf8Encode (String.join ["ab", "c"]))) = _
    rw [show String.join ["ab", "c"] = String.join ["a", "bc"] from rfl]
    rfl

/-- C2, counterexample to the claim as stated: the ordered lists [ab, c] and
[a, bc] differ, yet their derived digests are identical, because both
concatenate to the string abc before hashing. -/
theorem C2_counterexample :
    ["ab", "c"] ≠ ["a", "bc"] ∧
    generateHashFromArray ["ab", "c"] = generateHashFromArray ["a", "bc"] := by
  constructor
  · decide
  · show bytesToHex (sha256 (utf8Encode (String.join ["ab", "c"]))) = _
    rw [show String.join ["ab", "c"] = String.join ["a", "bc"] from rfl]
    rfl

/-- C2, witness: the amended theorem applied at concrete lists, including the
hypothesis-bearing determinism and hex-alphabet parts. -/
theorem C2_cache_key_witness :
    generateHashFromArray ["ab", "c"] = generateHashFromArray ["a", "bc"] ∧
    (generateHashFromArray []).length = 64 ∧ 'e' ∈ hexChars :=
  ⟨C2_cache_key.1 ["ab", "c"] ["a", "bc"] rfl, (C2_cache_key.2.1 []).1,
   (C2_cache_key.2.1 []).2 'e' (by decide)⟩

/-- C3, corrected: for every cache-miss build that fails after the artifact
name is derived, the handler invokes unlink on the partial cache storage
location before returning, but it does not await the unlink, so the trace
holds the initiation of the unlink and not its completion — an existence check
at the moment the handler returns is not yet guaranteed to be false. -/
theorem C3_cleanup (β : Type) (env : Env β) (noname : Noname) (v e : String) (evs : List Event)
    (hact : noname.action = "downloadAssets")
    (hres : resolveVersionEv env.tags noname.version = (evs, Except.ok v))
    (hmiss : env.pathExists (cachePath (jsOr noname.owner "libccy") (jsOr noname.repo "noname") v
      noname.fileList) = false)
    (herr : (nonameRequestListener env noname).errorMsg = some e) :
    Event.unlinkStart (cachePath (jsOr noname.owner "libccy") (jsOr noname.repo "noname") v
      noname.fileList) ∈ (nonameRequestListener env noname).events ∧
    Event.unlinkDone (cachePath (jsOr noname.owner "libccy") (jsOr noname.repo "noname") v
      noname.fileList) ∉ (nonameRequestListener env noname).events :=
  listener_error_unlink env noname v e evs hact hres herr

/-- C3, counterexample to the claim as stated: a build of three files that
fails when the third exhausts its attempts does invoke unlink on the storage
location, but the trace holds no completed unlink at the moment the handler
returns, so the location cannot be assumed gone. -/
theorem C3_counterexample :
    (nonameRequestListener envC3 reqC3).errorMsg =
      some "Failed to fetch body after 5 attempts" ∧
    Event.unlinkStart pathC3 ∈ (nonameRequestListener envC3 reqC3).events ∧
    Event.unlinkDone pathC3 ∉ (nonameRequestListener envC3 reqC3).events := by
  refine ⟨by decide, by decide, by decide⟩

/-- C3, witness: the amended theorem applied at the concrete failing build. -/
theorem C3_cleanup_witness :
    Event.unlinkStart pathC3 ∈ (nonameRequestListener envC3 reqC3).events ∧
    Event.unlinkDone pathC3 ∉ (nonameRequestListener envC3 reqC3).events :=
  C3_cleanup Nat envC3 reqC3 "v" "Failed to fetch body after 5 attempts" [] rfl rfl rfl (by decide)

/-- C4, confirmed: a request for a previously completed bundle streams the
stored artifact directly (the body is exactly the stored content, hence
byte-identical across repeated requests against the same store), and neither
the fetch scheduler nor the archive builder is ever invoked. -/
theorem C4_cache_hit (β : Type) (env : Env β) (noname : Noname) (v : String) (evs : List Event)
    (hact : noname.action = "downloadAssets")
    (hres : resolveVersionEv env.tags noname.version = (evs, Except.ok v))
    (hex : env.pathExists (cachePath (jsOr noname.owner "libccy") (jsOr noname.repo "noname") v
      noname.fileList) = true)
    (hho : env.headerOk = true) :
    (nonameRequestListener env noname).body =
      RespBody.cacheStream (env.content (cachePath (jsOr noname.owner "libccy")
        (jsOr noname.repo "noname") v noname.fileList)) ∧
    (nonameRequestListener env noname).errorMsg = none ∧
    (∀ u k, Event.fetchAttempt u k ∉ (nonameRequestListener env noname).events) ∧
    (∀ f, Event.append f ∉ (nonameRequestListener env noname).events) ∧
    Event.finalizeArchive ∉ (nonameRequestListener env noname).events := by
  have hevs : evs = (resolveVersionEv env.tags noname.version).1 := by rw [hres]
  rw [listener_cache_hit env noname v evs hact hres hex hho]
  refine ⟨rfl, rfl, ?_, ?_, ?_⟩
  · intro u k hmem
    rw [hevs] at hmem
    simp only [List.mem_append, List.mem_cons] at hmem
    rcases hmem with h | h | h
    · exact resolve_no_attempt _ _ u k h
    · cases h
    · simp at h
  · intro f hmem
    rw [hevs] at hmem
    simp only [List.mem_append, List.mem_cons] at hmem
    rcases hmem with h | h | h
    · exact resolve_no_append _ _ f h
    · cases h
    · simp at h
  · intro hmem
    rw [hevs] at hmem
    simp only [List.mem_append, List.mem_cons] at hmem
    rcases hmem with h | h | h
    · exact resolve_no_finalize _ _ h
    · cases h
    · simp at h

/-- C4, witness: the theorem applied at a concrete world whose store holds the
requested bundle with content 7. -/
theorem C4_cache_hit_witness :
    (nonameRequestListener envC4 reqC4).body = RespBody.cacheStream 7 ∧
    (nonameRequestListener envC4 reqC4).errorMsg = none ∧
    Event.fetchAttempt (rawUrl "o" "r" "v" "f.js") 0 ∉
      (nonameRequestListener envC4 reqC4).events ∧
    Event.append "f.js" ∉ (nonameRequestListener envC4 reqC4).events := by
  have h := C4_cache_hit Nat envC4 reqC4 "v" [] rfl rfl rfl rfl
  exact ⟨h.1, h.2.1, h.2.2.1 _ 0, h.2.2.2.1 "f.js"⟩

/-- C5, confirmed: with no version supplied the listener queries the tag list
exactly once, and version resolution returns the first tag in server order
that differs from v1998; it fails when the tag request does not succeed or
when every tag (also none at all) equals v1998; on the list
[v1998, v2.0, v1.0] it returns v2.0. -/
theorem C5_version_resolution :
    getLatestVersionFromGitHub (Except.error ()) =
      Except.error "Failed to fetch tags from GitHub repository"
    ∧ (∀ ts : List String, (∀ t ∈ ts, t = "v1998") →
        getLatestVersionFromGitHub (Except.ok ts) =
          Except.error "No valid tags found in the repository")
    ∧ (∀ (pre : List String) (t : String) (post : List String),
        (∀ x ∈ pre, x = "v1998") → t ≠ "v1998" →
        getLatestVersionFromGitHub (Except.ok (pre ++ t :: post)) = Except.ok t)
    ∧ getLatestVersionFromGitHub (Except.ok ["v1998", "v2.0", "v1.0"]) = Except.ok "v2.0"
    ∧ (∀ (β : Type) (env : Env β) (noname : Noname),
        noname.action = "downloadAssets" → noname.version = none →
        ((nonameRequestListener env noname).events.count Event.fetchTags) = 1) := by
  refine ⟨rfl, ?_, ?_, rfl, ?_⟩
  · intro ts h
    simp [getLatestVersionFromGitHub, firstNonSentinel_all ts h]
  · intro pre t post hpre ht
    simp [getLatestVersionFromGitHub, firstNonSentinel_first pre t post hpre ht]
  · intro β env noname hact hv
    exact listener_tags_count env noname hact hv

/-- C5, witness: the theorem applied at the all-sentinel list, the example
list split as sentinel prefix and v2.0, and a concrete version-less request. -/
theorem C5_version_resolution_witness :
    getLatestVersionFromGitHub (Except.ok ["v1998"]) =
      Except.error "No valid tags found in the repository" ∧
    getLatestVersionFromGitHub (Except.ok (["v1998"] ++ "v2.0" :: ["v1.0"])) =
      Except.ok "v2.0" ∧
    ((nonameRequestListener envC5 reqC5).events.count Event.fetchTags) = 1 :=
  ⟨C5_version_resolution.2.1 ["v1998"] (by decide),
   C5_version_resolution.2.2.1 ["v1998"] "v2.0" ["v1.0"] (by decide) (by decide),
   C5_version_resolution.2.2.2.2 Nat envC5 reqC5 rfl rfl⟩

/-- C6, confirmed: the artifact name is the composed template with every
occurrence of the ten listed characters in the whole name replaced by a dash
(the source regex replacement coincides with the spec-side character map), no
forbidden character survives anywhere in the name, and the concrete example
sanitizes as stated. -/
theorem C6_artifact_name :
    (∀ o r v k : String, assetName o r v k = specAssetName o r v k)
    ∧ assetName "o" "r" "a/b?c" "deadbeef" = "noname-asset-o-r-a-b-c-deadbeef.zip"
    ∧ (∀ (o r v k : String) (c : Char), c ∈ (assetName o r v k).data → c ∉ forbiddenChars) := by
  refine ⟨?_, by decide, ?_⟩
  · intro o r v k
    exact sanitize_eq_spec _
  · intro o r v k c hc
    have hc2 : c ∈ (("noname-asset-" ++ o ++ "-" ++ r ++ "-" ++ v ++ "-" ++ k ++
        ".zip").data.map sanitizeChar) := hc
    rcases List.mem_map.mp hc2 with ⟨c2, _, hmap⟩
    rw [← hmap]
    exact sanitizeChar_not_forbidden c2

/-- C6, witness: the character n of the concrete artifact name is preserved
and is not a forbidden character. -/
theorem C6_artifact_name_witness :
    'n' ∈ (assetName "o" "r" "v" "k").data ∧ 'n' ∉ forbiddenChars :=
  ⟨by decide, C6_artifact_name.2.2 "o" "r" "v" "k" 'n' (by decide)⟩

/-- C8, confirmed: with the fixed module-level fetch-concurrency ceiling of 16
permits shared by all fetches, any interleaving of a request naming more than
16 files keeps the number of outstanding fetches at or below the ceiling in
every reachable scheduler state. -/
theorem C8_concurrency_ceiling (fileList : List String) (hM : fileList.length > limitPermits)
    (s : SchedState) (hr : SchedReach limitPermits ⟨fileList.length, 0⟩ s) :
    s.active ≤ limitPermits ∧ limitPermits = 16 :=
  ⟨schedReach_active_le limitPermits _ s hr (by simp), rfl⟩

/-- C8, witness: a 17-file request after one start step has 1 ≤ 16
outstanding fetches. -/
theorem C8_concurrency_ceiling_witness :
    SchedState.active ⟨16, 1⟩ ≤ limitPermits ∧ limitPermits = 16 :=
  C8_concurrency_ceiling (List.replicate 17 "f") (by decide) ⟨16, 1⟩
    (Relation.ReflTransGen.single
      (show SchedStep limitPermits ⟨(List.replicate 17 "f").length, 0⟩ ⟨16, 1⟩ from
        SchedStep.start 17 0 (by decide) (by decide)))

/-- C7, corrected: every failing request is answered either with the 500 fault
status before any streaming — in the streaming listener with an empty body,
while only the buffered getNoname variant carries the failure message as the
body — or, when streaming has begun, by destroying the connection instead of
completing a truncated archive. -/
theorem C7_failure_reporting :
    (∀ (β : Type) (env : Env β) (noname : Noname) (e : String),
      noname.action = "downloadAssets" →
      (nonameRequestListener env noname).errorMsg = some e →
      (firstStatus (nonameRequestListener env noname).events = some 500 ∧
       (nonameRequestListener env noname).body = RespBody.empty ∧
       Event.destroy ∉ (nonameRequestListener env noname).events) ∨
      (firstStatus (nonameRequestListener env noname).events = some 200 ∧
       Event.destroy ∈ (nonameRequestListener env noname).events))
    ∧ (∀ (β : Type) (genv : GEnv β) (noname : Noname),
        (getNoname genv noname).status = 500 →
        ∃ m, (getNoname genv noname).body = some (GetBody.text m)) :=
  ⟨fun _ env noname e hact herr => listener_error_shape env noname e hact herr,
   fun _ genv noname h500 => getNoname_500_body genv noname h500⟩

/-- C7, counterexample to the claim as stated: a request whose tag query fails
errors before streaming; the listener answers 500, but with an empty body,
not with the available failure message. -/
theorem C7_counterexample :
    (nonameRequestListener envC7 reqC7).errorMsg =
      some "Failed to fetch tags from GitHub repository" ∧
    firstStatus (nonameRequestListener envC7 reqC7).events = some 500 ∧
    (nonameRequestListener envC7 reqC7).body = RespBody.empty ∧
    (nonameRequestListener envC7 reqC7).body ≠
      RespBody.text "Failed to fetch tags from GitHub repository" := by
  refine ⟨by decide, by decide, by decide, by decide⟩

/-- C7, witness: the amended theorem applied at the concrete failing listener
request and at the concrete failing buffered request. -/
theorem C7_failure_reporting_witness :
    ((firstStatus (nonameRequestListener envC7 reqC7).events = some 500 ∧
      (nonameRequestListener envC7 reqC7).body = RespBody.empty ∧
      Event.destroy ∉ (nonameRequestListener envC7 reqC7).events) ∨
     (firstStatus (nonameRequestListener envC7 reqC7).events = some 200 ∧
      Event.destroy ∈ (nonameRequestListener envC7 reqC7).events)) ∧
    ∃ m, (getNoname genvC7 reqC7).body = some (GetBody.text m) :=
  ⟨C7_failure_reporting.1 Nat envC7 reqC7 "Failed to fetch tags from GitHub repository" rfl
    (by decide),
   C7_failure_reporting.2 Nat genvC7 reqC7 (by decide)⟩

/-- C9, confirmed: whenever an error is thrown after the artifact name has
been assigned — in any branch, the cache-hit branch with its previously
completed entry included — the handler invokes unlink on the cache storage
path before returning and never awaits its completion: the trace holds the
initiation of the unlink and no completion. -/
theorem C9_unlink_not_awaited (β : Type) (env : Env β) (noname : Noname) (v e : String)
    (evs : List Event)
    (hact : noname.action = "downloadAssets")
    (hres : resolveVersionEv env.tags noname.version = (evs, Except.ok v))
    (herr : (nonameRequestListener env noname).errorMsg = some e) :
    Event.unlinkStart (cachePath (jsOr noname.owner "libccy") (jsOr noname.repo "noname") v
      noname.fileList) ∈ (nonameRequestListener env noname).events ∧
    Event.unlinkDone (cachePath (jsOr noname.owner "libccy") (jsOr noname.repo "noname") v
      noname.fileList) ∉ (nonameRequestListener env noname).events :=
  listener_error_unlink env noname v e evs hact hres herr

/-- C9, witness: a cache-hit request whose header write throws still invokes
(and does not await) unlink on the path of the completed entry. -/
theorem C9_unlink_not_awaited_witness :
    Event.unlinkStart pathC9 ∈ (nonameRequestListener envC9 reqC9).events ∧
    Event.unlinkDone pathC9 ∉ (nonameRequestListener envC9 reqC9).events :=
  C9_unlink_not_awaited Nat envC9 reqC9 "v" "Invalid character in header content" [] rfl rfl
    (by decide)

/-- C10, confirmed: a downloadAssets request with an empty fileList succeeds
without dispatching any file fetch, its derived cache key is the SHA-256
digest of the empty byte sequence, and the delivered archive holds zero
entries. -/
theorem C10_empty_fileList (β : Type) (env : Env β) (noname : Noname) (v : String)
    (evs : List Event)
    (hact : noname.action = "downloadAssets")
    (hres : resolveVersionEv env.tags noname.version = (evs, Except.ok v))
    (hempty : noname.fileList = [])
    (hmiss : env.pathExists (cachePath (jsOr noname.owner "libccy") (jsOr noname.repo "noname") v
      noname.fileList) = false)
    (hho : env.headerOk = true) (hfin : env.finalizeOk = true) :
    (nonameRequestListener env noname).errorMsg = none ∧
    (nonameRequestListener env noname).body = RespBody.archiveStream [] ∧
    (∀ u k, Event.fetchAttempt u k ∉ (nonameRequestListener env noname).events) ∧
    generateHashFromArray [] =
      "e3b0c44298fc1c149afbf4c8996fb92427ae41e4649b934ca495991b7852b855" := by
  have hF : (fetchPhase env.attempt (jsOr noname.owner "libccy") (jsOr noname.repo "noname") v
      noname.fileList).2 = Except.ok [] := by rw [hempty]; rfl
  have hph : (fetchPhase env.attempt (jsOr noname.owner "libccy") (jsOr noname.repo "noname") v
      noname.fileList).1 = [] := by rw [hempty]; rfl
  have hevs : evs = (resolveVersionEv env.tags noname.version).1 := by rw [hres]
  rw [listener_miss_success env noname v evs [] hact hres hmiss hho hfin hF]
  refine ⟨rfl, rfl, ?_, by decide⟩
  intro u k hmem
  rw [hph, hevs] at hmem
  simp only [List.nil_append, List.mem_append, List.mem_cons] at hmem
  rcases hmem with h | h | h
  · exact resolve_no_attempt _ _ u k h
  · cases h
  · simp at h

/-- C10, witness: the theorem applied at a concrete empty-fileList request. -/
theorem C10_empty_fileList_witness :
    (nonameRequestListener envC10 reqC10).errorMsg = none ∧
    (nonameRequestListener envC10 reqC10).body = RespBody.archiveStream [] ∧
    Event.fetchAttempt (rawUrl "o" "r" "v" "x") 0 ∉ (nonameRequestListener envC10 reqC10).events ∧
    generateHashFromArray [] =
      "e3b0c44298fc1c149afbf4c8996fb92427ae41e4649b934ca495991b7852b855" := by
  have h := C10_empty_fileList Nat envC10 reqC10 "v" [] rfl rfl rfl rfl rfl rfl
  exact ⟨h.1, h.2.1, h.2.2.1 _ 0, h.2.2.2⟩
